import Mathlib

/-!
Shallow embedding of the cm-python-client upload core: the CSV file splitter
(`cm_python_clients/utils/csv_file_splitter.py`) and the upload orchestration and
job-status polling of `cm_python_clients/load_data_client.py`.

Rows and headers are generic in a type `α` together with an explicit byte-size
function `size : α → Nat` standing for `len(row.encode('utf-8'))`; the faithful
instantiation for actual CSV lines is `α := String`, `size := String.utf8ByteSize`.
A part yielded by the splitter is modelled as the list of lines written to its
temporary file together with its part number.
-/

/-- Loop of `CSVFileSplitter.split_file`, processing the remaining rows given the
current part number, the byte-size counter `current_size` and the lines already
written to the open part file.  Mirrors the source loop verbatim: a new part is
started when `current_size + row_size > chunk_size` and `current_part < num_parts`;
on starting a new part the counter is reset to `header_size`, but no header line is
written to the new file (exactly as in the source, where `current_size = header_size`
is set without a corresponding `write(header)`); the row is then written and counted.
After the loop the open part is always yielded. -/
def splitStep {α : Type} (size : α → Nat) (chunk_size num_parts header_size : Nat) :
    List α → Nat → Nat → List α → List (List α × Nat)
  | [], current_part, _, current_content => [(current_content, current_part)]
  | row :: rest, current_part, current_size, current_content =>
    if current_size + size row > chunk_size ∧ current_part < num_parts then
      (current_content, current_part) ::
        splitStep size chunk_size num_parts header_size rest
          (current_part + 1) (header_size + size row) [row]
    else
      splitStep size chunk_size num_parts header_size rest
        current_part (current_size + size row) (current_content ++ [row])

/-- Embedding of `CSVFileSplitter.split_file(file_path, num_parts)` on a source file
whose first line is `header` and whose remaining lines are `rows`: the header is read,
the first part file is created holding the header, the counter starts at the header's
byte size and the part counter at 1, and the loop runs over the data rows. -/
def split_file {α : Type} (size : α → Nat) (chunk_size : Nat) (header : α)
    (rows : List α) (num_parts : Nat) : List (List α × Nat) :=
  splitStep size chunk_size num_parts (size header) rows 1 (size header) [header]

/-- Fixed `self.target_part_size` of `LoadDataClient.__init__`: 20MB. -/
def target_part_size : Nat := 20 * 1024 * 1024

/-- Default `chunk_size` of `LoadDataClient.__init__`: 50MB. -/
def default_chunk_size : Nat := 50 * 1024 * 1024

/-- Upload strategy selected by `upload_data`. -/
inductive UploadStrategy : Type
  | singlePart : UploadStrategy
  | multipart : Nat → UploadStrategy
deriving DecidableEq, Repr

/-- Strategy selection of `upload_data` (lines 85-92): single-part when
`file_size <= self.chunk_size`, otherwise multipart with
`parts = (file_size + self.target_part_size - 1) // self.target_part_size`. -/
def choose_upload_strategy (chunk_size file_size : Nat) : UploadStrategy :=
  if file_size ≤ chunk_size then UploadStrategy.singlePart
  else UploadStrategy.multipart ((file_size + target_part_size - 1) / target_part_size)

/-- Total byte size of the source file: header plus all data rows
(`os.path.getsize`). -/
def file_size {α : Type} (size : α → Nat) (header : α) (rows : List α) : Nat :=
  size header + (rows.map size).sum

/-- One collected `{"eTag": ..., "partNumber": ...}` entry of `_multipart_upload`. -/
structure PartETag : Type where
  eTag : String
  partNumber : Nat
deriving DecidableEq, Repr

/-- Upload loop of `_multipart_upload` (lines 195-205): for each part yielded by the
splitter, look up `upload_urls[part_number - 1]` (a Python `IndexError` if out of
bounds), call `_upload_part` — modelled by the oracle `etag_of`, where `none` stands
for the call raising (non-success HTTP status or missing `ETag` header) — and append
the `(eTag, partNumber)` record.  Any failure propagates as `Except.error` before the
remaining parts are touched. -/
def upload_parts {α : Type} (upload_urls : List String) (etag_of : Nat → Option String) :
    List (List α × Nat) → List PartETag → Except String (List PartETag)
  | [], uploaded_parts => Except.ok uploaded_parts
  | (_, part_number) :: rest, uploaded_parts =>
    if part_number - 1 < upload_urls.length then
      match etag_of part_number with
      | some etag =>
          upload_parts upload_urls etag_of rest (uploaded_parts ++ [⟨etag, part_number⟩])
      | none => Except.error ("part upload failed")
    else Except.error ("IndexError")

/-- Number of `_upload_part` calls made by the upload loop before it returns or a
failure propagates: each in-bounds part triggers exactly one call, a failing call is
still a call, and an `IndexError` on the URL lookup happens before any call. -/
def upload_calls {α : Type} (upload_urls : List String) (etag_of : Nat → Option String) :
    List (List α × Nat) → Nat
  | [] => 0
  | (_, part_number) :: rest =>
    if part_number - 1 < upload_urls.length then
      match etag_of part_number with
      | some _ => 1 + upload_calls upload_urls etag_of rest
      | none => 1
    else 0

/-- Embedding of `_multipart_upload` (lines 190-218): split the file into the
requested number of parts with `CSVFileSplitter(self.chunk_size)` — note the splitter
budget is `chunk_size`, not `target_part_size` — upload each yielded part, and, only
if every upload succeeded, call `complete_multipart_upload` with the collected
`partETags`.  `Except.ok tags` means the completion request was submitted carrying
exactly `tags`; `Except.error` means the exception propagated and completion was
never called. -/
def multipart_upload {α : Type} (size : α → Nat) (chunk_size : Nat) (header : α)
    (rows : List α) (parts : Nat) (upload_urls : List String)
    (etag_of : Nat → Option String) : Except String (List PartETag) :=
  upload_parts upload_urls etag_of (split_file size chunk_size header rows parts) []

/-- Response of `jobs_api.get_job_status`: status string and backend message. -/
structure JobStatusResponse : Type where
  status : String
  message : String
deriving DecidableEq, Repr

/-- Outcome of `poll_job_status`: return `True` (SUCCEEDED), return `False` (FAILED),
or raise `TimeoutError`. -/
inductive PollOutcome : Type
  | succeeded : PollOutcome
  | failed : PollOutcome
  | timedOut : PollOutcome
deriving DecidableEq, Repr

/-- Python condition `timeout and (time.time() - start_time) > timeout`: skipped when
`timeout` is `None` or `0` (falsy), otherwise true when the elapsed time strictly
exceeds the timeout. -/
def timeout_exceeded (timeout : Option Nat) (elapsed : Nat) : Bool :=
  match timeout with
  | none => false
  | some t => decide (t ≠ 0 ∧ t < elapsed)

/-- Loop of `poll_job_status` (lines 336-356).  `get_status k` is the response of the
k-th status fetch (0-based); after `k` sleeps of `poll_interval` seconds the elapsed
wall time at the k-th fetch is `k * poll_interval`.  The loop fetches, returns on
`SUCCEEDED` or `FAILED`, raises `TimeoutError` when the timeout condition holds, and
otherwise sleeps and repeats.  `fuel` bounds the number of iterations modelled
(`none` means the loop was still running); the second component counts fetches. -/
def poll_loop (get_status : Nat → JobStatusResponse) (poll_interval : Nat)
    (timeout : Option Nat) : Nat → Nat → Option (PollOutcome × Nat)
  | _, 0 => none
  | fetches, fuel + 1 =>
    let js := get_status fetches
    if js.status = "SUCCEEDED" then some (PollOutcome.succeeded, fetches + 1)
    else if js.status = "FAILED" then some (PollOutcome.failed, fetches + 1)
    else if timeout_exceeded timeout (fetches * poll_interval) then
      some (PollOutcome.timedOut, fetches + 1)
    else poll_loop get_status poll_interval timeout (fetches + 1) fuel

/-- Embedding of `poll_job_status(job_id, poll_interval, timeout)`. -/
def poll_job_status (get_status : Nat → JobStatusResponse) (poll_interval : Nat)
    (timeout : Option Nat) (fuel : Nat) : Option (PollOutcome × Nat) :=
  poll_loop get_status poll_interval timeout 0 fuel

/-- Message of the exception raised by `upload_data` when polling reports failure:
`Exception(f"Job {job_response.id} failed")`. -/
def job_failed_message (job_id : String) : String :=
  "Job " ++ job_id ++ " failed"

/-- Polling step of `upload_data` (lines 95-98): `poll_job_status` is called with the
default interval 5 and no timeout; if the job failed (`success = False`) an exception
carrying `job_failed_message` is raised.  The backend-provided failure message is
only logged inside `poll_job_status`, never attached to the raised exception. -/
def upload_data_poll (get_status : Nat → JobStatusResponse) (job_id : String)
    (fuel : Nat) : Option (Except String Unit) :=
  match poll_job_status get_status 5 none fuel with
  | none => none
  | some (PollOutcome.succeeded, _) => some (Except.ok ())
  | some (PollOutcome.failed, _) => some (Except.error (job_failed_message job_id))
  | some (PollOutcome.timedOut, _) => some (Except.error ("TimeoutError"))

/-- Flattening the written lines of all yielded parts recovers the open part's lines
followed by the remaining rows: every row is written exactly once, unsplit, in
order. -/
theorem splitStep_flatten {α : Type} (size : α → Nat)
    (chunk_size num_parts header_size : Nat) (rows : List α) :
    ∀ (current_part current_size : Nat) (current_content : List α),
      ((splitStep size chunk_size num_parts header_size rows
          current_part current_size current_content).map Prod.fst).flatten =
        current_content ++ rows := by
  induction rows with
  | nil => intro p s c; simp [splitStep]
  | cons r rest ih =>
    intro p s c
    by_cases h : s + size r > chunk_size ∧ p < num_parts
    · simp [splitStep, if_pos h, ih]
    · simp [splitStep, if_neg h, ih]

/-- The splitter always yields at least one part (the open part is always yielded at
the end of the loop). -/
theorem splitStep_length_pos {α : Type} (size : α → Nat)
    (chunk_size num_parts header_size : Nat) (rows : List α) :
    ∀ (current_part current_size : Nat) (current_content : List α),
      0 < (splitStep size chunk_size num_parts header_size rows
          current_part current_size current_content).length := by
  induction rows with
  | nil => intro p s c; simp [splitStep]
  | cons r rest ih =>
    intro p s c
    by_cases h : s + size r > chunk_size ∧ p < num_parts
    · simp [splitStep, if_pos h]
    · simp only [splitStep, if_neg h]; exact ih _ _ _

/-- A new part is only opened while `current_part < num_parts`, so starting from part
number `p ≤ num_parts` the loop yields at most `num_parts + 1 - p` parts. -/
theorem splitStep_length_le {α : Type} (size : α → Nat)
    (chunk_size num_parts header_size : Nat) (rows : List α) :
    ∀ (current_part current_size : Nat) (current_content : List α),
      current_part ≤ num_parts →
      current_part + (splitStep size chunk_size num_parts header_size rows
          current_part current_size current_content).length ≤ num_parts + 1 := by
  induction rows with
  | nil => intro p s c hp; simp [splitStep]; omega
  | cons r rest ih =>
    intro p s c hp
    by_cases h : s + size r > chunk_size ∧ p < num_parts
    · simp only [splitStep, if_pos h, List.length_cons]
      have := ih (p + 1) (header_size + size r) [r] h.2
      omega
    · simp only [splitStep, if_neg h]
      exact ih p (s + size r) (c ++ [r]) hp

/-- Part numbers are yielded consecutively starting from the current part number. -/
theorem splitStep_map_snd {α : Type} (size : α → Nat)
    (chunk_size num_parts header_size : Nat) (rows : List α) :
    ∀ (current_part current_size : Nat) (current_content : List α),
      (splitStep size chunk_size num_parts header_size rows
          current_part current_size current_content).map Prod.snd =
        List.range' current_part
          (splitStep size chunk_size num_parts header_size rows
            current_part current_size current_content).length := by
  induction rows with
  | nil => intro p s c; simp [splitStep]
  | cons r rest ih =>
    intro p s c
    by_cases h : s + size r > chunk_size ∧ p < num_parts
    · simp only [splitStep, if_pos h, List.map_cons, List.length_cons, List.range'_succ,
        List.cons.injEq, true_and]
      exact ih _ _ _
    · simp only [splitStep, if_neg h]
      exact ih _ _ _

/-- Wrapper of `splitStep_flatten` for `split_file`: the lines of the yielded part
files, concatenated in yield order, are exactly the header followed by every data
row of the source file. -/
theorem split_file_flatten {α : Type} (size : α → Nat) (chunk_size : Nat) (header : α)
    (rows : List α) (num_parts : Nat) :
    ((split_file size chunk_size header rows num_parts).map Prod.fst).flatten =
      header :: rows :=
  splitStep_flatten size chunk_size num_parts (size header) rows 1 (size header) [header]

/-- Wrapper of `splitStep_length_le`: for `num_parts ≥ 1` at most `num_parts` parts
are yielded. -/
theorem split_file_length_le {α : Type} (size : α → Nat) (chunk_size : Nat) (header : α)
    (rows : List α) (num_parts : Nat) (h : 1 ≤ num_parts) :
    (split_file size chunk_size header rows num_parts).length ≤ num_parts := by
  have h2 := splitStep_length_le size chunk_size num_parts (size header) rows 1
    (size header) [header] h
  simp only [split_file]
  omega

/-- Wrapper of `splitStep_map_snd`: the yielded part numbers are `1, 2, ..., k` where
`k` is the number of yielded parts. -/
theorem split_file_map_snd {α : Type} (size : α → Nat) (chunk_size : Nat) (header : α)
    (rows : List α) (num_parts : Nat) :
    (split_file size chunk_size header rows num_parts).map Prod.snd =
      List.range' 1 (split_file size chunk_size header rows num_parts).length :=
  splitStep_map_snd size chunk_size num_parts (size header) rows 1 (size header) [header]

/-- Every yielded part number lies between 1 and the number of yielded parts. -/
theorem split_file_snd_bounds {α : Type} (size : α → Nat) (chunk_size : Nat) (header : α)
    (rows : List α) (num_parts : Nat) (p : List α × Nat)
    (hp : p ∈ split_file size chunk_size header rows num_parts) :
    1 ≤ p.2 ∧ p.2 ≤ (split_file size chunk_size header rows num_parts).length := by
  have hmem : p.2 ∈ (split_file size chunk_size header rows num_parts).map Prod.snd :=
    List.mem_map_of_mem Prod.snd hp
  rw [split_file_map_snd] at hmem
  rcases List.mem_range'.1 hmem with ⟨i, hi, hpi⟩
  omega

/-- If the upload loop returns `Except.ok`, it processed every part: the collected
tag list extends the accumulator by exactly one record per part. -/
theorem upload_parts_ok_length {α : Type} (upload_urls : List String)
    (etag_of : Nat → Option String) :
    ∀ (l : List (List α × Nat)) (acc tags : List PartETag),
      upload_parts upload_urls etag_of l acc = Except.ok tags →
      tags.length = acc.length + l.length := by
  intro l
  induction l with
  | nil =>
    intro acc tags h
    simp only [upload_parts, Except.ok.injEq] at h
    simp [← h]
  | cons hd rest ih =>
    obtain ⟨f, n⟩ := hd
    intro acc tags h
    by_cases hb : n - 1 < upload_urls.length
    · simp only [upload_parts, if_pos hb] at h
      cases he : etag_of n with
      | none => rw [he] at h; cases h
      | some t =>
        rw [he] at h
        have := ih _ _ h
        simp only [List.length_append, List.length_cons, List.length_nil] at this ⊢
        omega
    · simp only [upload_parts, if_neg hb] at h
      cases h

/-- If any yielded part's upload raises (the oracle returns `none`), the upload loop
propagates an error: the collected tags are never returned, hence completion is
never reached. -/
theorem upload_parts_mem_none_error {α : Type} (upload_urls : List String)
    (etag_of : Nat → Option String) :
    ∀ (l : List (List α × Nat)) (acc : List PartETag) (f : List α) (n : Nat),
      (f, n) ∈ l → etag_of n = none →
      ∃ e, upload_parts upload_urls etag_of l acc = Except.error e := by
  intro l
  induction l with
  | nil => intro acc f n hmem _; cases hmem
  | cons hd rest ih =>
    obtain ⟨g, m⟩ := hd
    intro acc f n hmem hnone
    by_cases hb : m - 1 < upload_urls.length
    · cases he : etag_of m with
      | none =>
        refine ⟨"part upload failed", ?_⟩
        simp [upload_parts, if_pos hb, he]
      | some t =>
        rcases List.mem_cons.1 hmem with heq | htail
        · obtain ⟨rfl, rfl⟩ := Prod.mk.injEq .. ▸ heq
          rw [hnone] at he; cases he
        · have := ih (acc ++ [⟨t, m⟩]) f n htail hnone
          simpa [upload_parts, if_pos hb, he] using this
    · exact ⟨"IndexError", by simp [upload_parts, if_neg hb]⟩

/-- C1: the claim says every part yielded by `split_file` begins with the source
header, duplicated verbatim, including every part after the first.  The code slips:
on opening a new part it resets `current_size` to `header_size` — accounting for a
header line — but never writes the header, so every part after the first starts with
a data row.  Here a 2-part split of a file with header `h1,h2` yields a second part
whose first (and every) line is a data row, not the header. -/
theorem split_file_second_part_lacks_header :
    split_file String.utf8ByteSize 10 ("h1,h2\n") [("a,b\n"), ("c,d\n"), ("e,f\n")] 2 =
      [([("h1,h2\n"), ("a,b\n")], 1), ([("c,d\n"), ("e,f\n")], 2)] ∧
    [("c,d\n"), ("e,f\n")].head? ≠ some ("h1,h2\n") := by
  refine ⟨by decide, by decide⟩

/-- C5: the claim says a new part is started exactly when the accumulated bytes of
the open part plus the next row's byte length would exceed the chunk-size budget
(while the part index is below N).  Because the header is counted by `current_size`
but never written, the boundary decision for parts after the first overstates the
open part's bytes by the header's size: below, part 2 holds a single 4-byte row and
the next row is 4 bytes (4 + 4 ≤ 10), yet the code still opens part 3 because its
counter also includes the 6 header bytes that are not in the file. -/
theorem split_file_budget_counts_unwritten_header :
    split_file String.utf8ByteSize 10 ("h1,h2\n") [("a,b\n"), ("c,d\n"), ("e,f\n")] 3 =
      [([("h1,h2\n"), ("a,b\n")], 1), ([("c,d\n")], 2), ([("e,f\n")], 3)] ∧
    ([("c,d\n")].map String.utf8ByteSize).sum + String.utf8ByteSize ("e,f\n") ≤ 10 := by
  refine ⟨by decide, by decide⟩

/-- C2: for a 120MB file with the default 50MB `chunk_size` and 20MB
`target_part_size`, `upload_data` computes `parts = ceil(120MB / 20MB) = 6` and asks
the splitter for 6 parts — but `_multipart_upload` constructs the splitter with
`self.chunk_size` (50MB), not `target_part_size`, so the splitter only starts a new
part once 50MB accumulate and yields 3 parts.  The uploader is therefore called 3
times, not 6, and the completion request carries 3 `(tag, partNumber)` pairs, not 6.
The file is modelled with rows given by their byte sizes (a 120-byte header and six
rows of 20971500 bytes each, totalling exactly 120MB). -/
theorem multipart_120mb_uploads_three_parts :
    file_size (fun n => n) 120 (List.replicate 6 20971500) = 120 * 1024 * 1024 ∧
    choose_upload_strategy default_chunk_size
        (file_size (fun n => n) 120 (List.replicate 6 20971500)) =
      UploadStrategy.multipart 6 ∧
    (split_file (fun n => n) default_chunk_size 120 (List.replicate 6 20971500) 6).length
      = 3 ∧
    upload_calls [("u"), ("u"), ("u"), ("u"), ("u"), ("u")] (fun _ => some ("e"))
        (split_file (fun n => n) default_chunk_size 120 (List.replicate 6 20971500) 6)
      = 3 ∧
    multipart_upload (fun n => n) default_chunk_size 120 (List.replicate 6 20971500) 6
        [("u"), ("u"), ("u"), ("u"), ("u"), ("u")] (fun _ => some ("e")) =
      Except.ok [⟨"e", 1⟩, ⟨"e", 2⟩, ⟨"e", 3⟩] := by
  refine ⟨by decide, by decide, by decide, by decide, rfl⟩

/-- C3, counterexample: the claim says completion is invoked only when the collected
tag list has length equal to the requested part count.  Splitting a 6-byte file into
2 requested parts under a 100-byte budget yields a single part, yet
`complete_multipart_upload` is still invoked — with 1 collected tag, not 2. -/
theorem multipart_completion_with_fewer_tags :
    multipart_upload String.utf8ByteSize 100 ("h\n") [("a\n")] 2 [("u1"), ("u2")]
        (fun _ => some ("e")) = Except.ok [⟨"e", 1⟩] ∧
    [(⟨"e", 1⟩ : PartETag)].length ≠ 2 := by
  refine ⟨rfl, by decide⟩

/-- C3, amended: `complete_multipart_upload` is invoked only when the collected
`(tag, partNumber)` list has length equal to the number of parts actually yielded by
the splitter — a count that is at most, but not necessarily equal to, the requested
part count — and if any part upload raises, the exception propagates and the
completion call is never made. -/
theorem multipart_completion_only_for_yielded_parts {α : Type} (size : α → Nat)
    (chunk_size : Nat) (header : α) (rows : List α) (parts : Nat)
    (upload_urls : List String) (etag_of : Nat → Option String) :
    (∀ tags, multipart_upload size chunk_size header rows parts upload_urls etag_of =
        Except.ok tags →
      tags.length = (split_file size chunk_size header rows parts).length) ∧
    (1 ≤ parts → ∀ tags,
      multipart_upload size chunk_size header rows parts upload_urls etag_of =
        Except.ok tags →
      tags.length ≤ parts) ∧
    (∀ (f : List α) (n : Nat), (f, n) ∈ split_file size chunk_size header rows parts →
      etag_of n = none →
      ∃ e, multipart_upload size chunk_size header rows parts upload_urls etag_of =
        Except.error e) := by
  refine ⟨?_, ?_, ?_⟩
  · intro tags h
    have := upload_parts_ok_length upload_urls etag_of
      (split_file size chunk_size header rows parts) [] tags h
    simpa using this
  · intro hp tags h
    have h1 := upload_parts_ok_length upload_urls etag_of
      (split_file size chunk_size header rows parts) [] tags h
    have h2 := split_file_length_le size chunk_size header rows parts hp
    simp only [List.length_nil] at h1
    omega
  · intro f n hmem hnone
    exact upload_parts_mem_none_error upload_urls etag_of
      (split_file size chunk_size header rows parts) [] f n hmem hnone

/-- Witness for C3's amended theorem at concrete inputs: a successful run collects
one tag for the one yielded part, and a run whose only part upload raises ends in an
error (no completion). -/
theorem multipart_completion_only_for_yielded_parts_witness :
    [(⟨"e", 1⟩ : PartETag)].length =
      (split_file String.utf8ByteSize 100 ("h\n") [("a\n")] 2).length ∧
    ∃ e, multipart_upload String.utf8ByteSize 100 ("h\n") [("b\n")] 2 [("u1"), ("u2")]
        (fun _ => none) = Except.error e :=
  ⟨(multipart_completion_only_for_yielded_parts String.utf8ByteSize 100 ("h\n")
      [("a\n")] 2 [("u1"), ("u2")] (fun _ => some ("e"))).1 [⟨"e", 1⟩] rfl,
   (multipart_completion_only_for_yielded_parts String.utf8ByteSize 100 ("h\n")
      [("b\n")] 2 [("u1"), ("u2")] (fun _ => none)).2.2 [("h\n"), ("b\n")] 1
      (by decide) rfl⟩

/-- C4: for every source file (header plus data rows) and every requested part count
N ≥ 1, the lines of the yielded parts, concatenated in yield order, are exactly the
header followed by every data row of the source — each data row appears exactly
once, unsplit, in order (the header appears only at the front of the first part) —
and the number of yielded parts never exceeds N. -/
theorem split_file_preserves_rows {α : Type} (size : α → Nat) (chunk_size : Nat)
    (header : α) (rows : List α) (num_parts : Nat) (h : 1 ≤ num_parts) :
    ((split_file size chunk_size header rows num_parts).map Prod.fst).flatten =
      header :: rows ∧
    (split_file size chunk_size header rows num_parts).length ≤ num_parts :=
  ⟨split_file_flatten size chunk_size header rows num_parts,
   split_file_length_le size chunk_size header rows num_parts h⟩

/-- Witness for C4 at a concrete 2-part split. -/
theorem split_file_preserves_rows_witness :
    ((split_file String.utf8ByteSize 10 ("h1,h2\n")
        [("a,b\n"), ("c,d\n"), ("e,f\n")] 2).map Prod.fst).flatten =
      ("h1,h2\n") :: [("a,b\n"), ("c,d\n"), ("e,f\n")] ∧
    (split_file String.utf8ByteSize 10 ("h1,h2\n")
        [("a,b\n"), ("c,d\n"), ("e,f\n")] 2).length ≤ 2 :=
  split_file_preserves_rows String.utf8ByteSize 10 ("h1,h2\n")
    [("a,b\n"), ("c,d\n"), ("e,f\n")] 2 (by decide)

/-- C6: `upload_data` selects the single-part path for a file of exactly
`chunk_size` bytes (the single-part threshold), and for `chunk_size + 1` bytes
selects the multipart path with `ceil(file_size / target_part_size)` parts; this
holds for every threshold, in particular the default 50MB one. -/
theorem upload_strategy_boundary (chunk_size : Nat) :
    choose_upload_strategy chunk_size chunk_size = UploadStrategy.singlePart ∧
    choose_upload_strategy chunk_size (chunk_size + 1) =
      UploadStrategy.multipart ((chunk_size + 1) ⌈/⌉ target_part_size) := by
  constructor
  · simp [choose_upload_strategy]
  · simp only [choose_upload_strategy]
    rw [if_neg (by omega), Nat.ceilDiv_eq_add_pred_div]

/-- C7, counterexample: the claim says a FAILED terminal status surfaces as an error
wrapping the backend-provided failure message.  With a backend message of
`disk quota exceeded`, the exception raised by `upload_data` is
`Job 42 failed` — the backend message is only logged and does not occur in the
raised error. -/
theorem upload_failed_error_omits_backend_message :
    upload_data_poll (fun _ => ⟨"FAILED", "disk quota exceeded"⟩) ("42") 1 =
      some (Except.error (job_failed_message ("42"))) ∧
    ¬ (("disk quota exceeded").data <:+: (job_failed_message ("42")).data) := by
  refine ⟨rfl, by decide⟩

/-- C7, amended: when polling observes a terminal FAILED status, `upload_data`
raises an exception whose message is exactly `Job {job_id} failed` — it names the
job id; the backend-provided failure message is logged but not part of the raised
error. -/
theorem upload_failed_error_is_generic (get_status : Nat → JobStatusResponse)
    (job_id : String) (fuel n : Nat)
    (h : poll_job_status get_status 5 none fuel = some (PollOutcome.failed, n)) :
    upload_data_poll get_status job_id fuel =
      some (Except.error ("Job " ++ job_id ++ " failed")) := by
  simp [upload_data_poll, h, job_failed_message]

/-- Witness for C7's amended theorem at a concrete failing job. -/
theorem upload_failed_error_is_generic_witness :
    upload_data_poll (fun _ => ⟨"FAILED", "quota"⟩) ("j1") 1 =
      some (Except.error ("Job " ++ ("j1") ++ " failed")) :=
  upload_failed_error_is_generic (fun _ => ⟨"FAILED", "quota"⟩) ("j1") 1 1 rfl

/-- C8: with status fetches `[RUNNING, RUNNING, SUCCEEDED]` and interval 0 (no
timeout), `poll_job_status` returns success after exactly 3 fetches; and with
`timeout = 1`, the default interval 5 and a stream that never turns terminal, it
raises `TimeoutError` (here at the second fetch, once the elapsed time 5 exceeds
the timeout). -/
theorem poll_job_status_scenarios :
    poll_job_status
        (fun k => if k < 2 then ⟨"RUNNING", ""⟩ else ⟨"SUCCEEDED", ""⟩) 0 none 3 =
      some (PollOutcome.succeeded, 3) ∧
    poll_job_status (fun _ => ⟨"RUNNING", ""⟩) 5 (some 1) 2 =
      some (PollOutcome.timedOut, 2) := by
  refine ⟨by decide, by decide⟩

/-- C9: for every requested part count N ≥ 1 the part numbers yielded by
`split_file` are exactly `1, 2, ..., k` in strictly increasing consecutive order,
with `1 ≤ k ≤ N`; consequently the presigned-URL lookup
`upload_urls[part_number - 1]` performed by `_multipart_upload` is in bounds
whenever the backend returned at least N URLs. -/
theorem split_file_part_numbers_in_bounds {α : Type} (size : α → Nat)
    (chunk_size : Nat) (header : α) (rows : List α) (num_parts : Nat)
    (h : 1 ≤ num_parts) :
    (split_file size chunk_size header rows num_parts).map Prod.snd =
      List.range' 1 (split_file size chunk_size header rows num_parts).length ∧
    1 ≤ (split_file size chunk_size header rows num_parts).length ∧
    (split_file size chunk_size header rows num_parts).length ≤ num_parts ∧
    ∀ (upload_urls : List String), num_parts ≤ upload_urls.length →
      ∀ p ∈ split_file size chunk_size header rows num_parts,
        p.2 - 1 < upload_urls.length := by
  refine ⟨split_file_map_snd size chunk_size header rows num_parts,
    splitStep_length_pos size chunk_size num_parts (size header) rows 1
      (size header) [header],
    split_file_length_le size chunk_size header rows num_parts h, ?_⟩
  intro upload_urls hu p hp
  have hb := split_file_snd_bounds size chunk_size header rows num_parts p hp
  have hl := split_file_length_le size chunk_size header rows num_parts h
  omega

/-- Witness for C9 at a concrete 3-part split with 3 URLs. -/
theorem split_file_part_numbers_in_bounds_witness :
    (split_file String.utf8ByteSize 10 ("h1,h2\n")
        [("a,b\n"), ("c,d\n"), ("e,f\n")] 3).map Prod.snd =
      List.range' 1 (split_file String.utf8ByteSize 10 ("h1,h2\n")
        [("a,b\n"), ("c,d\n"), ("e,f\n")] 3).length ∧
    1 ≤ (split_file String.utf8ByteSize 10 ("h1,h2\n")
        [("a,b\n"), ("c,d\n"), ("e,f\n")] 3).length ∧
    (split_file String.utf8ByteSize 10 ("h1,h2\n")
        [("a,b\n"), ("c,d\n"), ("e,f\n")] 3).length ≤ 3 ∧
    ∀ (upload_urls : List String), 3 ≤ upload_urls.length →
      ∀ p ∈ split_file String.utf8ByteSize 10 ("h1,h2\n")
          [("a,b\n"), ("c,d\n"), ("e,f\n")] 3,
        p.2 - 1 < upload_urls.length :=
  split_file_part_numbers_in_bounds String.utf8ByteSize 10 ("h1,h2\n")
    [("a,b\n"), ("c,d\n"), ("e,f\n")] 3 (by decide)

/-- C10: a source file consisting of only a header line and no data rows yields
exactly one part, whose content is exactly the header line, for every requested
part count N ≥ 1 (the loop body never runs and the open first part — holding the
header — is yielded on exit). -/
theorem split_file_header_only {α : Type} (size : α → Nat) (chunk_size : Nat)
    (header : α) (num_parts : Nat) (h : 1 ≤ num_parts) :
    split_file size chunk_size header [] num_parts = [([header], 1)] := rfl

/-- Witness for C10 at a concrete header-only file. -/
theorem split_file_header_only_witness :
    split_file String.utf8ByteSize 10 ("h1,h2\n") [] 3 = [([("h1,h2\n")], 1)] :=
  split_file_header_only String.utf8ByteSize 10 ("h1,h2\n") 3 (by decide)
